import Mathlib

/-!
Verification of the congress-members fetch/normalize/write pipeline
(`fetch_members.py`) against its specification.

The program manipulates untyped JSON-like Python values, so we embed a
`PyVal` type covering the shapes the script touches (null, strings,
numbers, booleans, lists, string-keyed dicts) together with the Python
operations the script uses (`in`, indexing, `len`, truthiness, `[-1]`,
`dict.get`, `str.split`, `str.strip`, `int(float(..))`).  Operations that
can raise in Python return `Except PyErr`.
-/

set_option autoImplicit false
set_option exponentiation.threshold 1100

namespace CongressMembers

/-- Python exception kinds that the script can raise. -/
inductive PyErr where
  | attributeError
  | typeError
  | keyError
  | indexError
  | overflowError
  deriving DecidableEq, Repr

/-- JSON-like Python values as handled by the script.  Numbers are
modelled as rationals (covering both `int` and decimal `float` values);
dict keys are strings, as in JSON. -/
inductive PyVal where
  | pynull
  | pystr (s : String)
  | pynum (q : Rat)
  | pybool (b : Bool)
  | pylist (xs : List PyVal)
  | pydict (xs : List (String × PyVal))
  deriving Inhabited

/-- First-match lookup in a string-keyed dict (Python dict lookup). -/
def pyDictGet : List (String × PyVal) → String → Option PyVal
  | [], _ => none
  | (k', v) :: rest, k => if k' = k then some v else pyDictGet rest k

/-- Python truthiness (`bool(x)`); total. -/
def pyTruthy : PyVal → Bool
  | .pynull => false
  | .pystr s => !(s = "")
  | .pynum q => !(q = 0)
  | .pybool b => b
  | .pylist xs => !xs.isEmpty
  | .pydict xs => !xs.isEmpty

/-- Does the character list start with the given needle? -/
def startsWithList : List Char → List Char → Bool
  | [], _ => true
  | _ :: _, [] => false
  | p :: ps, c :: cs => p = c && startsWithList ps cs

/-- Does the character list contain the needle as a contiguous sublist? -/
def containsList (needle : List Char) : List Char → Bool
  | [] => needle.isEmpty
  | c :: cs => startsWithList needle (c :: cs) || containsList needle cs

/-- Substring containment `needle in haystack` for Python strings. -/
def pyStrIn (needle haystack : String) : Bool :=
  containsList needle.toList haystack.toList

/-- Python `s.split(sep)` for a one-character separator: every occurrence
separates, `"".split(sep) = [""]`. -/
def splitOnChar (sep : Char) : List Char → List (List Char)
  | [] => [[]]
  | c :: rest =>
    if c = sep then [] :: splitOnChar sep rest
    else
      match splitOnChar sep rest with
      | h :: t => (c :: h) :: t
      | [] => [[c]]

/-- Python `s.split(',')`. -/
def pySplit (s : String) (sep : Char) : List String :=
  (splitOnChar sep s.toList).map fun cs => String.mk cs

/-- Python `s.strip()`: remove leading and trailing whitespace. -/
def pyStrip (s : String) : String :=
  String.mk (((s.toList.dropWhile Char.isWhitespace).reverse.dropWhile
    Char.isWhitespace).reverse)

/-- Python `needle in container` for a string needle.  Raises
`TypeError` on non-iterable values, as Python does. -/
def pyContains : PyVal → String → Except PyErr Bool
  | .pystr s, k => .ok (pyStrIn k s)
  | .pylist xs, k =>
      .ok (xs.any fun v => match v with | .pystr t => t = k | _ => false)
  | .pydict xs, k => .ok (pyDictGet xs k).isSome
  | _, _ => .error .typeError

/-- Python `container[key]` for a string key.  String/list indexing by a
string raises `TypeError`; a missing dict key raises `KeyError`. -/
def pyGetItem : PyVal → String → Except PyErr PyVal
  | .pydict xs, k =>
      match pyDictGet xs k with
      | some v => .ok v
      | none => .error .keyError
  | _, _ => .error .typeError

/-- Python `len(x)`. -/
def pyLen : PyVal → Except PyErr Nat
  | .pystr s => .ok s.length
  | .pylist xs => .ok xs.length
  | .pydict xs => .ok xs.length
  | _ => .error .typeError

/-- Python `x[-1]` (last element of a sequence; key `-1` on a
string-keyed dict raises `KeyError`). -/
def pyGetLast : PyVal → Except PyErr PyVal
  | .pylist xs =>
      match xs.getLast? with
      | some v => .ok v
      | none => .error .indexError
  | .pystr s =>
      match s.toList.getLast? with
      | some c => .ok (.pystr c.toString)
      | none => .error .indexError
  | .pydict _ => .error .keyError
  | _ => .error .typeError

/-- Elements produced by iterating a Python value (`for x in v`):
a list yields its elements, a string its characters, a dict its keys. -/
def pyElems : PyVal → Except PyErr (List PyVal)
  | .pylist xs => .ok xs
  | .pystr s => .ok (s.toList.map fun c => .pystr c.toString)
  | .pydict xs => .ok (xs.map fun p => .pystr p.1)
  | _ => .error .typeError

/-- Digits to a natural number (`foldl`-style, most significant first). -/
def digitsVal (cs : List Char) : Nat :=
  cs.foldl (fun n c => n * 10 + (c.toNat - 48)) 0

/-- Truncation of a rational toward zero, as Python `int(..)` applied to
a float: the integer part, i.e. the floor of the absolute value with the
sign restored. -/
def pyTrunc (q : Rat) : Int :=
  if 0 ≤ q.num then ((q.num.toNat / q.den : Nat) : Int)
  else -(((-q.num).toNat / q.den : Nat) : Int)

/-- A Python float value: finite (idealized as an exact rational), an
infinity, or NaN. -/
inductive PyFloat where
  | finite (q : Rat)
  | inf (neg : Bool)
  | nan
  deriving DecidableEq

/-- Is this rational at or beyond the smallest magnitude no finite
double can reach (`|q| ≥ 2^1024`)? -/
def overflowsDouble (q : Rat) : Bool :=
  2 ^ 1024 * q.den ≤ q.num.natAbs

/-- A digit group possibly containing underscores, as Python numeric
literals allow (`"1_000"`): valid when every underscore separates two
digits; yields the digits with underscores removed.  An empty group is
valid and empty. -/
def digitGroup (cs : List Char) : Option (List Char) :=
  if cs.isEmpty then some []
  else
    let gs := splitOnChar '_' cs
    if gs.any List.isEmpty then none
    else
      let ds := gs.flatten
      if ds.all Char.isDigit then some ds else none

/-- The mantissa of a decimal literal: digits with at most one decimal
point and at least one digit; yields the combined digit value and the
number of fractional digits. -/
def parseMantissa (mant : List Char) : Option (Nat × Nat) :=
  match splitOnChar '.' mant with
  | [ip] => do
      let d ← digitGroup ip
      if d.isEmpty then none else some (digitsVal d, 0)
  | [ip, fp] => do
      let di ← digitGroup ip
      let df ← digitGroup fp
      if di.isEmpty && df.isEmpty then none
      else some (digitsVal (di ++ df), df.length)
  | _ => none

/-- The exponent of a decimal literal: optional sign and digits. -/
def parseExp (cs : List Char) : Option Int :=
  match cs with
  | '-' :: r => do
      let d ← digitGroup r
      if d.isEmpty then none else some (-(digitsVal d : Int))
  | '+' :: r => do
      let d ← digitGroup r
      if d.isEmpty then none else some ((digitsVal d : Int))
  | r => do
      let d ← digitGroup r
      if d.isEmpty then none else some ((digitsVal d : Int))

/-- The rational value `± mantissa × 10^e` of a decimal literal with
`fracLen` fractional digits. -/
def decimalValue (neg : Bool) (n fracLen : Nat) (e : Int) : Rat :=
  let sign : Int := if neg then -1 else 1
  let p : Int := e - fracLen
  if 0 ≤ p then mkRat (sign * n * 10 ^ p.toNat) 1
  else mkRat (sign * n) (10 ^ (-p).toNat)

/-- Python `float(s)`: optional surrounding whitespace and sign, then
`inf`/`infinity`/`nan` (case-insensitive) or a decimal literal with
optional fraction, optional exponent and underscores between digits.
Literals at or beyond `2^1024` in magnitude saturate to an infinity, as
C `strtod` does; in-range values are idealized as exact rationals
(double rounding at half-ulp is not modelled).  Unparseable strings
raise `ValueError`, modelled as `none`. -/
def pyFloatParse (s : String) : Option PyFloat :=
  let cs := (pyStrip s).toList.map Char.toLower
  let neg : Bool := match cs with | '-' :: _ => true | _ => false
  let cs := match cs with | '-' :: r => r | '+' :: r => r | _ => cs
  if cs = ['i', 'n', 'f'] || cs = ['i', 'n', 'f', 'i', 'n', 'i', 't', 'y'] then
    some (.inf neg)
  else if cs = ['n', 'a', 'n'] then some .nan
  else
    match splitOnChar 'e' cs with
    | [mant] => do
        let (n, fl) ← parseMantissa mant
        let q := decimalValue neg n fl 0
        some (if overflowsDouble q then .inf neg else .finite q)
    | [mant, ex] => do
        let (n, fl) ← parseMantissa mant
        let e ← parseExp ex
        let q := decimalValue neg n fl e
        some (if overflowsDouble q then .inf neg else .finite q)
    | _ => none

/-- Lines 112–116: `int(float(district))` guarded by
`except (ValueError, TypeError): district = None`.  A caught
`ValueError` or `TypeError` (unparseable string, NaN, null, list, dict)
degrades to `none`; but `int(..)` of an infinity — from
`'inf'`/`'Infinity'` or an overflowing literal — raises
`OverflowError`, which the handler does not catch, as does `float(..)`
of an integer at or beyond `2^1024` in magnitude. -/
def coerceDistrict : PyVal → Except PyErr (Option Int)
  | .pystr s =>
    match pyFloatParse s with
    | none => .ok none
    | some (.finite q) => .ok (some (pyTrunc q))
    | some (.inf _) => .error .overflowError
    | some .nan => .ok none
  | .pynum q =>
    if q.den == 1 && overflowsDouble q then .error .overflowError
    else .ok (some (pyTrunc q))
  | .pybool b => .ok (some (if b then 1 else 0))
  | _ => .ok none

/-- Lines 111–116: the district value after coercion and before the
senator zeroing: an absent key stays `None`; a present value is coerced,
with the `OverflowError` path propagating. -/
def districtOf (m : List (String × PyVal)) : Except PyErr (Option Int) :=
  match pyDictGet m "district" with
  | none => .ok none
  | some v => coerceDistrict v

/-- Lines 102–104: the "current term", i.e.
`member['terms']['item'][-1]` when
`'terms' in member and 'item' in member['terms'] and len(member['terms']['item']) > 0`,
with Python's dynamic-typing errors made explicit. -/
def currentTermOf (m : List (String × PyVal)) : Except PyErr (Option PyVal) :=
  match pyDictGet m "terms" with
  | none => .ok none
  | some terms =>
    match pyContains terms "item" with
    | .error e => .error e
    | .ok false => .ok none
    | .ok true =>
      match pyGetItem terms "item" with
      | .error e => .error e
      | .ok item =>
        match pyLen item with
        | .error e => .error e
        | .ok 0 => .ok none
        | .ok (_ + 1) =>
          match pyGetLast item with
          | .error e => .error e
          | .ok t => .ok (some t)

/-- Line 107: `chamber = current_term.get('chamber', '') if current_term else ''`
(truthiness test on the term; `.get` raises `AttributeError` on a
non-dict term). -/
def chamberOfTerm : Option PyVal → Except PyErr PyVal
  | none => .ok (.pystr "")
  | some t =>
    if pyTruthy t then
      match t with
      | .pydict d => .ok ((pyDictGet d "chamber").getD (.pystr ""))
      | _ => .error .attributeError
    else .ok (.pystr "")

/-- Lines 127–143: assembly of the output dict, in insertion order;
`district` is appended (only) for non-senators, after `lastUpdated`. -/
def mkMemberRecord (now : String) (idv : PyVal) (nameTrim firstName lastName : String)
    (party state chamber : PyVal) (isSenator : Bool) (url : PyVal)
    (inOffice : Bool) (district : Option Int) : List (String × PyVal) :=
  let base : List (String × PyVal) :=
    [("id", idv),
     ("name", .pystr nameTrim),
     ("firstName", .pystr firstName),
     ("lastName", .pystr lastName),
     ("party", party),
     ("state", state),
     ("chamber", chamber),
     ("title", .pystr (if isSenator then "Senator" else "Representative")),
     ("url", url),
     ("inOffice", .pybool inOffice),
     ("lastUpdated", .pystr now)]
  if isSenator then base
  else base ++ [("district", match district with
    | some n => .pynum (mkRat n 1)
    | none => .pynull)]

/-- Lines 97–98: `name_parts[0].strip() if len(name_parts) > 0 else ''`
(the split list is never empty). -/
def lastNameOfRaw (s : String) : String :=
  pyStrip ((pySplit s ',').headD "")

/-- Line 99: `name_parts[1].strip() if len(name_parts) > 1 else ''`. -/
def firstNameOfRaw (s : String) : String :=
  match pySplit s ',' with
  | _ :: p :: _ => pyStrip p
  | _ => ""

/-- Lines 96–145: normalization of one raw member record (assumed, as at
every call site, to be a dict).  `now` stands for
`datetime.now().isoformat()`.  Faithful to the Python, including where it
raises: a non-string `name` value raises `AttributeError` at
`.split(',')`, a non-iterable `terms` value raises `TypeError` at
`'item' in member['terms']`, etc. -/
def processMember (now : String) (m : List (String × PyVal)) :
    Except PyErr (List (String × PyVal)) :=
  match (pyDictGet m "name").getD (.pystr "") with
  | .pystr nameStr =>
    match currentTermOf m with
    | .error e => .error e
    | .ok currentTerm =>
      match chamberOfTerm currentTerm with
      | .error e => .error e
      | .ok chamber =>
        match pyContains chamber "Senate" with
        | .error e => .error e
        | .ok isSenator =>
          match districtOf m with
          | .error e => .error e
          | .ok district =>
            .ok (mkMemberRecord now ((pyDictGet m "bioguideId").getD (.pystr ""))
              (pyStrip nameStr) (firstNameOfRaw nameStr) (lastNameOfRaw nameStr)
              ((pyDictGet m "partyName").getD (.pystr ""))
              ((pyDictGet m "state").getD (.pystr "")) chamber isSenator
              ((pyDictGet m "url").getD (.pystr "")) currentTerm.isSome
              (if isSenator then none else district))
  | _ => .error .attributeError

/-- One raw member as iterated by `process_members_data`; calling
`.get` on a non-dict raises `AttributeError`. -/
def processMemberVal (now : String) : PyVal → Except PyErr (List (String × PyVal))
  | .pydict m => processMember now m
  | _ => .error .attributeError

/-- Lines 89–146: `process_members_data`.  Returns `[]` when the payload
is falsy or has no `members` key; otherwise normalizes every member in
order.  Uncaught exceptions are surfaced as `.error`. -/
def process_members_data (now : String) (data : PyVal) :
    Except PyErr (List (List (String × PyVal))) :=
  if !pyTruthy data then .ok []
  else
    match pyContains data "members" with
    | .error e => .error e
    | .ok false => .ok []
    | .ok true =>
      match pyGetItem data "members" with
      | .error e => .error e
      | .ok ms =>
        match pyElems ms with
        | .error e => .error e
        | .ok elems => elems.mapM (processMemberVal now)

/-- The JSON file written by `save_to_json`: the serialized collection
(each record a key-ordered dict) and the indent width. -/
structure JsonFile where
  content : List (List (String × PyVal))
  indent : Nat

/-- Lines 148–151: `json.dump(data, f, indent=2)`; `json.dump` writes
dict keys in insertion order. -/
def save_to_json (data : List (List (String × PyVal))) : JsonFile :=
  { content := data, indent := 2 }

/-- Result of one `requests.get` call: a transport/HTTP failure
(`requests.exceptions.RequestException`, which `raise_for_status` errors
are a subclass of) or a parsed JSON payload. -/
inductive ReqResult where
  | err
  | ok (data : PyVal)

/-- Outcome of one iteration of the pagination loop body on a successful
response: stop with the accumulated members (`break`) or continue with
them. -/
inductive StepRes where
  | stop (acc : List PyVal)
  | next (acc : List PyVal)

/-- Lines 66–69: given `data['pagination']`, does
`'count' in .. and 'next' in ..` hold with `not ..['next']`? -/
def pagNoNext (p : PyVal) : Except PyErr Bool :=
  match pyContains p "count" with
  | .error e => .error e
  | .ok false => .ok false
  | .ok true =>
    match pyContains p "next" with
    | .error e => .error e
    | .ok false => .ok false
    | .ok true =>
      match pyGetItem p "next" with
      | .error e => .error e
      | .ok nxt => .ok (!pyTruthy nxt)

/-- Lines 49–76: the body of the pagination loop after a successful
response, in source order: (line 49) break on falsy payload, missing
`members` key, or an empty page; (line 53) extend the accumulator;
(lines 63–69) break when the pagination metadata has `count` and `next`
with `next` falsy; (lines 72–74) break when the page is smaller than the
requested limit; otherwise continue. -/
def fetchStep (limit : Nat) (data : PyVal) (acc : List PyVal) :
    Except PyErr StepRes :=
  if !pyTruthy data then .ok (.stop acc)
  else
    match pyContains data "members" with
    | .error e => .error e
    | .ok false => .ok (.stop acc)
    | .ok true =>
      match pyGetItem data "members" with
      | .error e => .error e
      | .ok ms =>
        match pyLen ms with
        | .error e => .error e
        | .ok 0 => .ok (.stop acc)
        | .ok (n + 1) =>
          match pyElems ms with
          | .error e => .error e
          | .ok elems =>
            let acc' := acc ++ elems
            match (match pyContains data "pagination" with
              | .error e => .error e
              | .ok false => .ok false
              | .ok true =>
                match pyGetItem data "pagination" with
                | .error e => .error e
                | .ok p => pagNoNext p : Except PyErr Bool) with
            | .error e => .error e
            | .ok true => .ok (.stop acc')
            | .ok false =>
              if n + 1 < limit then .ok (.stop acc') else .ok (.next acc')

/-- Result of `get_congress_members`: `fuelOut` marks exhausted loop
fuel (the Python loop is unbounded), `crash` an uncaught exception,
`fail` the `except requests.exceptions.RequestException` branch that
logs and returns `None`, and `done` the accumulated members together
with the number of requests issued. -/
inductive FetchOut where
  | fuelOut
  | crash (e : PyErr)
  | fail
  | done (members : List PyVal) (reqs : Nat)

/-- Lines 28–76: the pagination loop.  `src n` is the source's response
to the `n`-th request (0-based); `reqs` counts requests issued so far. -/
def fetchLoop (src : Nat → ReqResult) (limit : Nat) :
    Nat → Nat → List PyVal → Nat → FetchOut
  | 0, _, _, _ => .fuelOut
  | fuel + 1, offset, acc, reqs =>
    match src reqs with
    | .err => .fail
    | .ok data =>
      match fetchStep limit data acc with
      | .error e => .crash e
      | .ok (.stop acc') => .done acc' (reqs + 1)
      | .ok (.next acc') => fetchLoop src limit fuel (offset + limit) acc' (reqs + 1)

/-- Number of members returned and number of requests issued, when the
loop ran to completion. -/
def FetchOut.stats : FetchOut → Option (Nat × Nat)
  | .done ms reqs => some (ms.length, reqs)
  | _ => none

/-- Lines 9–87: `get_congress_members` (given fuel for the unbounded
loop).  On completion it returns `{'members': all_members}` (line 83);
in the `RequestException` handler it returns `None` (lines 85–87),
discarding everything accumulated; an uncaught exception is `.error`. -/
def get_congress_members (src : Nat → ReqResult) (limit fuel : Nat) :
    Option (Except PyErr (Option PyVal)) :=
  match fetchLoop src limit fuel 0 [] 0 with
  | .fuelOut => none
  | .crash e => some (.error e)
  | .fail => some (.ok none)
  | .done ms _ => some (.ok (some (.pydict [("members", .pylist ms)])))

/-- A well-formed API response payload: a `members` list and optionally
a `pagination` object. -/
def mkResp (ms : List PyVal) (pag : Option PyVal) : PyVal :=
  .pydict (("members", .pylist ms) ::
    (match pag with | none => [] | some p => [("pagination", p)]))

/-- What `main` does after the fetch, lines 193–213. -/
inductive MainResult where
  | saved (files : List String) (records : List (List (String × PyVal)))
  | noData
  | fetchFailed
  | crashed (e : PyErr)

/-- Lines 193–213: the post-fetch control flow of `main`.  `raw` is the
value returned by `get_congress_members` (`none` models Python `None`).
Files are written, in order, only when the processed collection is
truthy (non-empty); an empty collection reports "No data to process";
a `None` fetch result reports "Failed to fetch data". -/
def mainFlow (today now : String) (raw : Option PyVal) : MainResult :=
  match raw with
  | none => .fetchFailed
  | some data =>
    if pyTruthy data then
      match process_members_data now data with
      | .error e => .crashed e
      | .ok recs =>
        if recs.isEmpty then .noData
        else .saved
          ["data/congress_members_" ++ today ++ ".json",
           "data/congress_members_" ++ today ++ ".csv",
           "data/congress_members_latest.json",
           "data/congress_members_latest.csv"] recs
    else .fetchFailed

/-- Convenience projection used in the theorems: the value of field `k`
of the normalized record for raw member `m` (when normalization
succeeds). -/
def fieldOf (now : String) (m : List (String × PyVal)) (k : String) : Option PyVal :=
  match processMember now m with
  | .ok r => pyDictGet r k
  | .error _ => none

/-- Did normalization succeed? -/
def normOk (e : Except PyErr (List (String × PyVal))) : Bool :=
  match e with
  | .ok _ => true
  | .error _ => false

/-- The field keys of the normalized record, when normalization
succeeds. -/
def keysOf (now : String) (m : List (String × PyVal)) : Option (List String) :=
  (processMember now m).toOption.map (List.map Prod.fst)

/-- Is this district field value an integer or null (never a string)? -/
def intOrNull : Option PyVal → Bool
  | some .pynull => true
  | some (.pynum q) => q.den = 1
  | _ => false

/-- Did the loop end in an uncaught exception? -/
def FetchOut.isCrash : FetchOut → Bool
  | .crash _ => true
  | _ => false

/-- Spec-side reading of termination rule (b), as the code interprets
it: the response's pagination object (when present) has `count` and
`next` entries and `next` is falsy. -/
def ruleB : Option PyVal → Except PyErr Bool
  | none => .ok false
  | some p => pagNoNext p

/-- The mock source of the spec's pagination test: pages of exactly
250, 250 and 10 records; any further request would fail. -/
def mockPages : Nat → ReqResult := fun n =>
  if n < 2 then .ok (mkResp (List.replicate 250 (.pydict [])) none)
  else if n = 2 then .ok (mkResp (List.replicate 10 (.pydict [])) none)
  else .err

/-- The field order of the `CanonicalMemberRecord` definition in the
spec's data model (§3), with `district` between `title` and `url`. -/
def canonicalFieldOrder : List String :=
  ["id", "name", "firstName", "lastName", "party", "state", "chamber",
   "title", "district", "url", "inOffice", "lastUpdated"]

/-- The key order the code actually produces for senators (no
`district` key). -/
def codeFieldOrder : List String :=
  ["id", "name", "firstName", "lastName", "party", "state", "chamber",
   "title", "url", "inOffice", "lastUpdated"]

/-- The key order the code actually produces for representatives:
`district` is inserted last, after `lastUpdated`. -/
def codeFieldOrderRep : List String :=
  codeFieldOrder ++ ["district"]

/-- Well-typedness of the `name` field: absent, or a string. -/
def nameFieldOk (m : List (String × PyVal)) : Bool :=
  match pyDictGet m "name" with
  | none => true
  | some (.pystr _) => true
  | some _ => false

/-- Well-typedness of one term entry: a dict whose `chamber`, if
present, is a string. -/
def termEntryOk : PyVal → Bool
  | .pydict d =>
    (match pyDictGet d "chamber" with
     | none => true
     | some (.pystr _) => true
     | some _ => false)
  | _ => false

/-- Well-typedness of the `terms` field: absent, or a dict whose
`item`, if present, is a list of well-typed term entries. -/
def termsFieldOk (m : List (String × PyVal)) : Bool :=
  match pyDictGet m "terms" with
  | none => true
  | some (.pydict t) =>
    (match pyDictGet t "item" with
     | none => true
     | some (.pylist items) => items.all termEntryOk
     | some _ => false)
  | some _ => false

/-- Coercibility of the `district` field: absent, or a value whose
coercion does not raise an uncaught `OverflowError` (i.e. not an
infinite float such as `'inf'` or an overflowing literal, and not an
integer at or beyond `2^1024` in magnitude). -/
def districtFieldOk (m : List (String × PyVal)) : Bool :=
  match districtOf m with
  | .ok _ => true
  | .error _ => false

/-- The coerced district of a record whose `district` field is
coercible. -/
def wtDistrict (m : List (String × PyVal)) : Option Int :=
  match districtOf m with
  | .ok d => d
  | .error _ => none

/-- A raw member record whose present fields have the types the source
documents: `name` a string, `terms` a dict whose `item` is a list of
term dicts with string `chamber`s, and `district` coercible without an
uncaught `OverflowError`.  (All other fields may be anything: the code
never calls methods on them.) -/
def wellTypedMember (m : List (String × PyVal)) : Bool :=
  nameFieldOk m && termsFieldOk m && districtFieldOk m

/-- Spec-side description of "a current term exists": the term-history
list is present and non-empty. -/
def hasCurrentTerm (m : List (String × PyVal)) : Bool :=
  match pyDictGet m "terms" with
  | some (.pydict t) =>
    (match pyDictGet t "item" with
     | some (.pylist items) => !items.isEmpty
     | _ => false)
  | _ => false

/-- Spec-side description of the chamber the code derives: the
`chamber` string of the last entry of the term-history list, when a
truthy (non-empty) current term exists; otherwise empty. -/
def specChamber (m : List (String × PyVal)) : String :=
  match pyDictGet m "terms" with
  | some (.pydict t) =>
    (match pyDictGet t "item" with
     | some (.pylist items) =>
       (match items.getLast? with
        | some (.pydict d) =>
          if d.isEmpty then ""
          else
            (match pyDictGet d "chamber" with
             | some (.pystr c) => c
             | _ => "")
        | _ => "")
     | _ => "")
  | _ => ""

/-- The string the code splits: the `name` value when it is a string,
`""` when the key is absent (the well-typed cases). -/
def rawNameStr (m : List (String × PyVal)) : String :=
  match (pyDictGet m "name").getD (.pystr "") with
  | .pystr s => s
  | _ => ""

set_option maxRecDepth 100000

theorem mkRec_get_title (now : String) (idv : PyVal) (nt fn ln : String)
    (pv sv ch : PyVal) (isSen : Bool) (uv : PyVal) (io : Bool) (d : Option Int) :
    pyDictGet (mkMemberRecord now idv nt fn ln pv sv ch isSen uv io d) "title" =
      some (.pystr (if isSen then "Senator" else "Representative")) := by
  cases isSen <;> rfl

theorem mkRec_get_chamber (now : String) (idv : PyVal) (nt fn ln : String)
    (pv sv ch : PyVal) (isSen : Bool) (uv : PyVal) (io : Bool) (d : Option Int) :
    pyDictGet (mkMemberRecord now idv nt fn ln pv sv ch isSen uv io d) "chamber" =
      some ch := by
  cases isSen <;> rfl

theorem mkRec_get_inOffice (now : String) (idv : PyVal) (nt fn ln : String)
    (pv sv ch : PyVal) (isSen : Bool) (uv : PyVal) (io : Bool) (d : Option Int) :
    pyDictGet (mkMemberRecord now idv nt fn ln pv sv ch isSen uv io d) "inOffice" =
      some (.pybool io) := by
  cases isSen <;> rfl

theorem mkRec_get_firstName (now : String) (idv : PyVal) (nt fn ln : String)
    (pv sv ch : PyVal) (isSen : Bool) (uv : PyVal) (io : Bool) (d : Option Int) :
    pyDictGet (mkMemberRecord now idv nt fn ln pv sv ch isSen uv io d) "firstName" =
      some (.pystr fn) := by
  cases isSen <;> rfl

theorem mkRec_get_lastName (now : String) (idv : PyVal) (nt fn ln : String)
    (pv sv ch : PyVal) (isSen : Bool) (uv : PyVal) (io : Bool) (d : Option Int) :
    pyDictGet (mkMemberRecord now idv nt fn ln pv sv ch isSen uv io d) "lastName" =
      some (.pystr ln) := by
  cases isSen <;> rfl

theorem mkRec_get_district_sen (now : String) (idv : PyVal) (nt fn ln : String)
    (pv sv ch : PyVal) (uv : PyVal) (io : Bool) (d : Option Int) :
    pyDictGet (mkMemberRecord now idv nt fn ln pv sv ch true uv io d) "district" =
      none := rfl

theorem mkRec_get_district_rep (now : String) (idv : PyVal) (nt fn ln : String)
    (pv sv ch : PyVal) (uv : PyVal) (io : Bool) (d : Option Int) :
    pyDictGet (mkMemberRecord now idv nt fn ln pv sv ch false uv io d) "district" =
      some (match d with | some n => .pynum (mkRat n 1) | none => .pynull) := by
  cases d <;> rfl

theorem mkRec_keys (now : String) (idv : PyVal) (nt fn ln : String)
    (pv sv ch : PyVal) (isSen : Bool) (uv : PyVal) (io : Bool) (d : Option Int) :
    (mkMemberRecord now idv nt fn ln pv sv ch isSen uv io d).map Prod.fst =
      if isSen then codeFieldOrder else codeFieldOrderRep := by
  cases isSen <;> rfl

/-- Every successful normalization result is a record assembled by
`mkMemberRecord` from the components the code computes. -/
theorem processMember_shape {now : String} {m r : List (String × PyVal)}
    (h : processMember now m = .ok r) :
    ∃ nameStr currentTerm chamber isSenator district,
      (pyDictGet m "name").getD (.pystr "") = .pystr nameStr ∧
      currentTermOf m = .ok currentTerm ∧
      chamberOfTerm currentTerm = .ok chamber ∧
      pyContains chamber "Senate" = .ok isSenator ∧
      districtOf m = .ok district ∧
      r = mkMemberRecord now ((pyDictGet m "bioguideId").getD (.pystr ""))
        (pyStrip nameStr) (firstNameOfRaw nameStr) (lastNameOfRaw nameStr)
        ((pyDictGet m "partyName").getD (.pystr ""))
        ((pyDictGet m "state").getD (.pystr "")) chamber isSenator
        ((pyDictGet m "url").getD (.pystr "")) currentTerm.isSome
        (if isSenator then none else district) := by
  unfold processMember at h
  split at h
  case h_2 => exact Except.noConfusion h
  case h_1 nameStr heq =>
    split at h
    case h_1 => exact Except.noConfusion h
    case h_2 ct hct =>
      split at h
      case h_1 => exact Except.noConfusion h
      case h_2 ch hch =>
        split at h
        case h_1 => exact Except.noConfusion h
        case h_2 isSen hsen =>
          split at h
          case h_1 => exact Except.noConfusion h
          case h_2 d hd =>
            exact ⟨nameStr, ct, ch, isSen, d, heq, hct, hch, hsen, hd,
              (Except.ok.inj h).symm⟩

theorem all_getLast? {p : PyVal → Bool} {l : List PyVal} {x : PyVal}
    (h : l.all p = true) (hx : l.getLast? = some x) : p x = true := by
  induction l with
  | nil => exact Option.noConfusion hx
  | cons a l ih =>
    cases l with
    | nil =>
      simp only [List.getLast?_singleton, Option.some.injEq] at hx
      subst hx
      simpa using h
    | cons b l' =>
      rw [List.getLast?_cons_cons] at hx
      exact ih (by simp_all) hx

/-- On a record whose `terms` field is well-typed, the current-term
computation succeeds, its presence agrees with `hasCurrentTerm`, and
the chamber it yields is the string `specChamber` describes. -/
theorem terms_eval_wt {m : List (String × PyVal)} (h : termsFieldOk m = true) :
    ∃ ct, currentTermOf m = .ok ct ∧ ct.isSome = hasCurrentTerm m ∧
      chamberOfTerm ct = .ok (.pystr (specChamber m)) := by
  unfold termsFieldOk at h
  unfold currentTermOf hasCurrentTerm specChamber
  cases hterms : pyDictGet m "terms" with
  | none => exact ⟨none, rfl, rfl, rfl⟩
  | some terms =>
    rw [hterms] at h
    cases terms with
    | pydict t =>
      dsimp only at h ⊢
      cases hitem : pyDictGet t "item" with
      | none =>
        simp only [pyContains, hitem, Option.isSome_none]
        exact ⟨none, rfl, rfl, rfl⟩
      | some iv =>
        rw [hitem] at h
        cases iv with
        | pylist items =>
          simp only [pyContains, hitem, Option.isSome_some, pyGetItem, pyLen]
          cases items with
          | nil => exact ⟨none, rfl, rfl, rfl⟩
          | cons a rest =>
            have hlast : ∃ x, (a :: rest).getLast? = some x := by
              cases hg : (a :: rest).getLast? with
              | none => simp [List.getLast?_eq_none_iff] at hg
              | some x => exact ⟨x, rfl⟩
            obtain ⟨x, hx⟩ := hlast
            have hxok : termEntryOk x = true := all_getLast? h hx
            refine ⟨some x, ?_, ?_, ?_⟩
            · simp only [List.length_cons, pyGetLast, hx]
            · simp
            · unfold termEntryOk at hxok
              cases x with
              | pydict d =>
                dsimp only at hxok
                simp only [chamberOfTerm, pyTruthy, hx]
                cases hd : d.isEmpty with
                | true => simp [hd]
                | false =>
                  simp only [hd, Bool.not_false, if_pos]
                  cases hch : pyDictGet d "chamber" with
                  | none => simp [hch]
                  | some cv =>
                    rw [hch] at hxok
                    cases cv <;> simp_all
              | pynull => exact Bool.noConfusion hxok
              | pystr s => exact Bool.noConfusion hxok
              | pynum q => exact Bool.noConfusion hxok
              | pybool b => exact Bool.noConfusion hxok
              | pylist xs => exact Bool.noConfusion hxok
        | pynull => exact Bool.noConfusion h
        | pystr s => exact Bool.noConfusion h
        | pynum q => exact Bool.noConfusion h
        | pybool b => exact Bool.noConfusion h
        | pydict xs => exact Bool.noConfusion h
    | pynull => exact Bool.noConfusion h
    | pystr s => exact Bool.noConfusion h
    | pynum q => exact Bool.noConfusion h
    | pybool b => exact Bool.noConfusion h
    | pylist xs => exact Bool.noConfusion h

theorem name_getD_wt {m : List (String × PyVal)} (h : nameFieldOk m = true) :
    (pyDictGet m "name").getD (.pystr "") = .pystr (rawNameStr m) := by
  unfold nameFieldOk at h
  unfold rawNameStr
  cases hv : pyDictGet m "name" with
  | none => rfl
  | some v =>
    rw [hv] at h
    cases v <;> first | rfl | exact Bool.noConfusion h

theorem district_eval_wt {m : List (String × PyVal)}
    (h : districtFieldOk m = true) : districtOf m = .ok (wtDistrict m) := by
  unfold districtFieldOk at h
  unfold wtDistrict
  cases hv : districtOf m with
  | ok d => rfl
  | error e =>
    rw [hv] at h
    exact Bool.noConfusion h

/-- On a well-typed raw record, normalization succeeds and produces the
record assembled from the components described by `specChamber`,
`hasCurrentTerm` and `wtDistrict`. -/
theorem processMember_wt (now : String) {m : List (String × PyVal)}
    (h : wellTypedMember m = true) :
    processMember now m =
      .ok (mkMemberRecord now ((pyDictGet m "bioguideId").getD (.pystr ""))
        (pyStrip (rawNameStr m)) (firstNameOfRaw (rawNameStr m))
        (lastNameOfRaw (rawNameStr m))
        ((pyDictGet m "partyName").getD (.pystr ""))
        ((pyDictGet m "state").getD (.pystr ""))
        (.pystr (specChamber m)) (pyStrIn "Senate" (specChamber m))
        ((pyDictGet m "url").getD (.pystr "")) (hasCurrentTerm m)
        (if pyStrIn "Senate" (specChamber m) then none
         else wtDistrict m)) := by
  rw [wellTypedMember, Bool.and_eq_true, Bool.and_eq_true] at h
  obtain ⟨⟨hname, hterms⟩, hdist⟩ := h
  obtain ⟨ct, h1, h2, h3⟩ := terms_eval_wt hterms
  unfold processMember
  rw [name_getD_wt hname, h1]
  dsimp only
  rw [h3]
  dsimp only [pyContains]
  rw [district_eval_wt hdist]
  dsimp only
  rw [h2]

/-- C1: for every output record of the normalizer, title `"Senator"`
implies the district field is absent (even if the raw record supplied a
district), and title `"Representative"` implies the district field is an
integer or null, never a non-numeric string; a raw district `"3.0"`
normalizes to the integer `3` and a raw district `"abc"` normalizes to
null. -/
theorem C1_district_invariant :
    (∀ (now : String) (m : List (String × PyVal)),
      fieldOf now m "title" = some (.pystr "Senator") →
        fieldOf now m "district" = none) ∧
    (∀ (now : String) (m : List (String × PyVal)),
      fieldOf now m "title" = some (.pystr "Representative") →
        intOrNull (fieldOf now m "district") = true) ∧
    fieldOf "t" [("district", .pystr "3.0")] "district" =
      some (.pynum (mkRat 3 1)) ∧
    fieldOf "t" [("district", .pystr "abc")] "district" = some .pynull ∧
    fieldOf "t" [("district", .pystr "7"),
        ("terms", .pydict [("item",
          .pylist [.pydict [("chamber", .pystr "Senate")]])])] "district" =
      none := by
  refine ⟨?_, ?_, rfl, rfl, rfl⟩
  · intro now m htitle
    unfold fieldOf at htitle ⊢
    cases hp : processMember now m with
    | error e => simp [hp] at htitle
    | ok r =>
      rw [hp] at htitle
      dsimp only at htitle ⊢
      obtain ⟨ns, ct, ch, isSen, d0, -, -, -, -, -, rfl⟩ := processMember_shape hp
      rw [mkRec_get_title] at htitle
      cases isSen with
      | true => exact mkRec_get_district_sen ..
      | false => simp at htitle
  · intro now m htitle
    unfold fieldOf at htitle ⊢
    cases hp : processMember now m with
    | error e => simp [hp] at htitle
    | ok r =>
      rw [hp] at htitle
      dsimp only at htitle ⊢
      obtain ⟨ns, ct, ch, isSen, d0, -, -, -, -, -, rfl⟩ := processMember_shape hp
      rw [mkRec_get_title] at htitle
      cases isSen with
      | true => simp at htitle
      | false =>
        rw [mkRec_get_district_rep]
        cases d0 with
        | none => simp [intOrNull]
        | some n => simp [intOrNull, Rat.mkRat_one]

/-- C1 witness: the invariant instantiated on a concrete senator record
and a concrete representative record. -/
theorem C1_district_invariant_witness :
    fieldOf "t" [("terms", .pydict [("item",
        .pylist [.pydict [("chamber", .pystr "Senate")]])])] "district" =
      none ∧
    intOrNull (fieldOf "t" [("district", .pystr "3.0")] "district") = true :=
  ⟨C1_district_invariant.1 "t" _ rfl, C1_district_invariant.2.1 "t" _ rfl⟩

/-- C3 counterexample: the normalizer is not total.  A raw record whose
`name` field is null (not a string) raises `AttributeError` at
`.split(',')`; a record whose `terms` field is a number raises
`TypeError` at `'item' in member['terms']`; and a district of `"inf"`
or `"1e400"` raises `OverflowError` at `int(float(district))`, which
`except (ValueError, TypeError)` does not catch — none degrade to a
default. -/
theorem C3_never_fails_cex :
    processMember "t" [("name", PyVal.pynull)] = .error .attributeError ∧
    processMember "t" [("terms", PyVal.pynum (mkRat 5 1))] =
      .error .typeError ∧
    processMember "t" [("district", PyVal.pystr "inf")] =
      .error .overflowError ∧
    processMember "t" [("district", PyVal.pystr "1e400")] =
      .error .overflowError := ⟨rfl, rfl, rfl, rfl⟩

/-- C3 amended: normalization never fails on raw records whose present
fields are well-typed (`name` a string; `terms` a dict whose `item` is a
list of term dicts with string chambers; `district` coercible without an
uncaught `OverflowError`) — missing fields degrade to
empty-string/null/false defaults; but ill-typed present fields (a null
`name`, a numeric `terms`, an infinite or overflowing `district`) raise
instead of degrading. -/
theorem C3_never_fails_amended (now : String) (m : List (String × PyVal))
    (h : wellTypedMember m = true) : normOk (processMember now m) = true := by
  rw [processMember_wt now h]
  rfl

/-- C3 witness: the amended totality theorem applied to a concrete
record with several missing fields. -/
theorem C3_never_fails_amended_witness :
    wellTypedMember [("state", PyVal.pystr "CA")] = true ∧
    normOk (processMember "t" [("state", PyVal.pystr "CA")]) = true :=
  ⟨rfl, C3_never_fails_amended "t" _ rfl⟩

/-- C4 counterexample: the code splits the combined name on every comma
and keeps only the second component as `firstName` — for
`"Smith, Jr., John"` it yields `"Jr."`, not the claimed full remainder
`"Jr., John"` — and it never reads separate `firstName`/`lastName`
source fields: they normalize to empty strings. -/
theorem C4_name_split_cex :
    fieldOf "t" [("name", .pystr "Smith, Jr., John")] "firstName" =
      some (.pystr "Jr.") ∧
    ¬ ("Jr." = "Jr., John") ∧
    fieldOf "t" [("firstName", .pystr "John"), ("lastName", .pystr "Smith")]
      "firstName" = some (.pystr "") ∧
    ¬ ("" = "John") := ⟨rfl, by decide, rfl, by decide⟩

/-- C4 amended: when a combined `name` string is present the code splits
it on every comma, `lastName` is the text before the first comma
(stripped) and `firstName` is the text between the first and second
commas (stripped, empty if there is no comma; any text after a second
comma is discarded); `"Smith, John Q."` still yields
`lastName = "Smith"`, `firstName = "John Q."`.  Separate
`firstName`/`lastName` source fields are never consulted: without a
`name` field both normalize to empty strings. -/
theorem C4_name_split_amended :
    (∀ (now s : String),
      fieldOf now [("name", .pystr s)] "lastName" =
        some (.pystr (lastNameOfRaw s)) ∧
      fieldOf now [("name", .pystr s)] "firstName" =
        some (.pystr (firstNameOfRaw s))) ∧
    (∀ s : String, lastNameOfRaw s = pyStrip ((pySplit s ',').headD "") ∧
      firstNameOfRaw s = pyStrip ((pySplit s ',').getD 1 "")) ∧
    fieldOf "t" [("name", .pystr "Smith, John Q.")] "lastName" =
      some (.pystr "Smith") ∧
    fieldOf "t" [("name", .pystr "Smith, John Q.")] "firstName" =
      some (.pystr "John Q.") ∧
    (∀ (now : String) (fn ln : PyVal),
      fieldOf now [("firstName", fn), ("lastName", ln)] "firstName" =
        some (.pystr "") ∧
      fieldOf now [("firstName", fn), ("lastName", ln)] "lastName" =
        some (.pystr "")) := by
  refine ⟨fun now s => ⟨rfl, rfl⟩, fun s => ⟨rfl, ?_⟩, rfl, rfl,
    fun now fn ln => ⟨rfl, rfl⟩⟩
  unfold firstNameOfRaw
  cases h : pySplit s ',' with
  | nil => rfl
  | cons a t => cases t <;> rfl

/-- C5 counterexample: a flat `chamber` field on the raw record is not
preferred — it is ignored entirely.  A record whose flat chamber is
`"Senate"` (and that has no term history) normalizes to an empty chamber
and is even titled `"Representative"`. -/
theorem C5_chamber_cex :
    fieldOf "t" [("chamber", .pystr "Senate")] "chamber" =
      some (.pystr "") ∧
    ¬ ("" = "Senate") ∧
    fieldOf "t" [("chamber", .pystr "Senate")] "title" =
      some (.pystr "Representative") := ⟨rfl, by decide, rfl⟩

/-- C5 amended: on every well-typed record (string `name`, well-formed
`terms`, coercible `district` — the records normalization completes on)
the normalized chamber is always derived from the `chamber` field of
the current (last) term of the term history — the empty string when
there is no (truthy) current term — and a flat `chamber` field on the
raw record itself is ignored. -/
theorem C5_chamber_amended :
    (∀ (now : String) (m : List (String × PyVal)),
      wellTypedMember m = true →
        fieldOf now m "chamber" = some (.pystr (specChamber m))) ∧
    (∀ (now : String) (v : PyVal),
      fieldOf now [("chamber", v)] "chamber" = some (.pystr "")) ∧
    (∀ (v : PyVal) (m : List (String × PyVal)),
      specChamber (("chamber", v) :: m) = specChamber m) := by
  refine ⟨?_, fun now v => rfl, fun v m => rfl⟩
  intro now m h
  unfold fieldOf
  rw [processMember_wt now h]
  exact mkRec_get_chamber ..

/-- C5 witness: the amended chamber derivation applied to a concrete
record whose current term says House. -/
theorem C5_chamber_amended_witness :
    wellTypedMember [("terms", .pydict [("item", .pylist
      [.pydict [("chamber", .pystr "Senate")],
       .pydict [("chamber", .pystr "House of Representatives")]])])] = true ∧
    fieldOf "t" [("terms", .pydict [("item", .pylist
      [.pydict [("chamber", .pystr "Senate")],
       .pydict [("chamber", .pystr "House of Representatives")]])])] "chamber" =
      some (.pystr (specChamber [("terms", .pydict [("item", .pylist
        [.pydict [("chamber", .pystr "Senate")],
         .pydict [("chamber", .pystr "House of Representatives")]])])])) :=
  ⟨rfl, C5_chamber_amended.1 "t" _ rfl⟩

/-- C9 counterexample: a direct boolean `inOffice` field supplied by the
source is ignored — a record with `inOffice = true` but no term history
normalizes to `inOffice = false`. -/
theorem C9_inoffice_cex :
    fieldOf "t" [("inOffice", .pybool true)] "inOffice" =
      some (.pybool false) ∧
    ¬ ((false : Bool) = true) := ⟨rfl, by decide⟩

/-- C9 amended: on every well-typed record (string `name`, well-formed
`terms`, coercible `district` — the records normalization completes on)
the normalized `inOffice` is true iff a current term was determined to
exist (the term-history list is present and non-empty); any direct
`inOffice` field on the raw record is ignored. -/
theorem C9_inoffice_amended :
    (∀ (now : String) (m : List (String × PyVal)),
      wellTypedMember m = true →
        fieldOf now m "inOffice" = some (.pybool (hasCurrentTerm m))) ∧
    (∀ (now : String) (b : Bool),
      fieldOf now [("inOffice", .pybool b)] "inOffice" =
        some (.pybool false)) := by
  refine ⟨?_, fun now b => rfl⟩
  intro now m h
  unfold fieldOf
  rw [processMember_wt now h]
  exact mkRec_get_inOffice ..

/-- C9 witness: the amended `inOffice` rule applied to a record with a
one-entry term history and to a record with an empty one. -/
theorem C9_inoffice_amended_witness :
    wellTypedMember [("terms", .pydict [("item", .pylist
      [.pydict [("chamber", .pystr "House of Representatives")]])])] = true ∧
    fieldOf "t" [("terms", .pydict [("item", .pylist
      [.pydict [("chamber", .pystr "House of Representatives")]])])] "inOffice" =
      some (.pybool (hasCurrentTerm [("terms", .pydict [("item", .pylist
        [.pydict [("chamber", .pystr "House of Representatives")]])])])) ∧
    wellTypedMember [("terms", .pydict [("item", .pylist [])])] = true ∧
    fieldOf "t" [("terms", .pydict [("item", .pylist [])])] "inOffice" =
      some (.pybool (hasCurrentTerm [("terms", .pydict [("item", .pylist [])])])) :=
  ⟨rfl, C9_inoffice_amended.1 "t" _ rfl, rfl, C9_inoffice_amended.1 "t" _ rfl⟩

/-- C10: district coercion truncates toward zero, not to the nearest
integer: coercion of a numeric string or float applies `pyTrunc`, which
on non-negatives is the floor and is symmetric under negation (hence
truncation toward zero); in particular a raw district `"3.9"` normalizes
to `3`, not `4`, and `"-2.7"` to `-2`. -/
theorem C10_district_truncation :
    (∀ (s : String) (q : Rat), pyFloatParse s = some (.finite q) →
      coerceDistrict (.pystr s) = .ok (some (pyTrunc q))) ∧
    (∀ q : Rat, q.den ≠ 1 →
      coerceDistrict (.pynum q) = .ok (some (pyTrunc q))) ∧
    (∀ q : Rat, 0 ≤ q → pyTrunc q = ⌊q⌋) ∧
    (∀ q : Rat, pyTrunc (-q) = -(pyTrunc q)) ∧
    fieldOf "t" [("district", .pystr "3.9")] "district" =
      some (.pynum (mkRat 3 1)) ∧
    fieldOf "t" [("district", .pystr "-2.7")] "district" =
      some (.pynum (mkRat (-2) 1)) ∧
    pyTrunc (mkRat 39 10) = 3 ∧ ¬ ((3 : Int) = 4) := by
  refine ⟨?_, ?_, ?_, ?_, rfl, rfl, by decide, by decide⟩
  · intro s q h
    simp [coerceDistrict, h]
  · intro q hq
    simp [coerceDistrict, hq]
  · intro q hq
    have hn : 0 ≤ q.num := Rat.num_nonneg.mpr hq
    unfold pyTrunc
    rw [if_pos hn, Rat.floor_def, Int.ofNat_tdiv, Int.toNat_of_nonneg hn,
      Int.tdiv_eq_ediv hn (by positivity)]
  · intro q
    unfold pyTrunc
    rw [Rat.num_neg_eq_neg_num, Rat.den_neg_eq_den]
    rcases lt_trichotomy q.num 0 with h | h | h
    · rw [if_pos (by omega), if_neg (by omega), neg_neg]
    · simp [h]
    · rw [if_neg (by omega), if_pos (by omega), neg_neg]

/-- C10 witness: the truncation rules instantiated at `"3.9"` and at the
rational `39/10`. -/
theorem C10_district_truncation_witness :
    pyFloatParse "3.9" = some (.finite (mkRat 39 10)) ∧
    coerceDistrict (.pystr "3.9") = .ok (some (pyTrunc (mkRat 39 10))) ∧
    ¬ ((mkRat 39 10).den = 1) ∧
    coerceDistrict (.pynum (mkRat 39 10)) = .ok (some (pyTrunc (mkRat 39 10))) ∧
    (0 ≤ (mkRat 39 10 : Rat)) ∧ pyTrunc (mkRat 39 10) = ⌊(mkRat 39 10 : Rat)⌋ :=
  ⟨rfl, C10_district_truncation.1 "3.9" (mkRat 39 10) rfl, by decide,
    C10_district_truncation.2.1 (mkRat 39 10) (by decide), by decide,
    C10_district_truncation.2.2.1 (mkRat 39 10) (by decide)⟩

theorem mapM_length {α β : Type} (f : α → Except PyErr β) :
    ∀ (l : List α) (res : List β), l.mapM f = .ok res → res.length = l.length := by
  intro l
  induction l with
  | nil =>
    intro res h
    simp only [List.mapM_nil, pure, Except.pure, Except.ok.injEq] at h
    subst h
    rfl
  | cons a t ih =>
    intro res h
    rw [List.mapM_cons] at h
    cases hfa : f a with
    | error e => rw [hfa] at h; simp [Bind.bind, Except.bind] at h
    | ok b =>
      rw [hfa] at h
      simp only [Bind.bind, Except.bind] at h
      cases hmt : List.mapM f t with
      | error e => rw [hmt] at h; exact Except.noConfusion h
      | ok bs =>
        rw [hmt] at h
        simp only [pure, Except.pure, Except.ok.injEq] at h
        subst h
        simp [ih bs hmt]

/-- C2 counterexample: termination rule (b) is narrower than
"pagination metadata indicates no further page" — lines 66–69 stop only
when the pagination object has *both* a `count` key and a `next` key
with `next` falsy.  A source whose full first page carries
`pagination = {'next': null}` (no `count`) is not stopped by rule (b):
with its second page empty, the fetcher issues 2 requests, not the 1
the claim's rule (b) would imply. -/
theorem C2_pagination_termination_cex :
    (fetchLoop (fun n =>
        if n = 0 then
          .ok (mkResp (List.replicate 250 (.pydict []))
            (some (.pydict [("next", .pynull)])))
        else .ok (mkResp [] none)) 250 10 0 [] 0).stats = some (250, 2) ∧
    ¬ ((2 : Nat) = 1) := ⟨rfl, by decide⟩

/-- C2 amended: the pagination loop applies its termination rules in
source order with the first match winning — (a) an empty page stops
before any members are added; (b) otherwise pagination metadata with
*both* a `count` entry and a falsy `next` entry stops after adding the
page; (c) otherwise a page smaller than the requested limit stops after
adding it; otherwise the loop continues — and on the 250/250/10 mock
source with page size 250 it returns exactly 510 records in exactly 3
requests. -/
theorem C2_pagination_termination :
    (∀ (limit : Nat) (ms acc : List PyVal) (pag : Option PyVal) (b : Bool),
      ruleB pag = .ok b →
      fetchStep limit (mkResp ms pag) acc =
        .ok (if ms.isEmpty then .stop acc
          else if b then .stop (acc ++ ms)
          else if ms.length < limit then .stop (acc ++ ms)
          else .next (acc ++ ms))) ∧
    (fetchLoop mockPages 250 10 0 [] 0).stats = some (510, 3) := by
  refine ⟨?_, rfl⟩
  intro limit ms acc pag b hb
  cases pag with
  | none =>
    obtain rfl : b = false := by
      simp only [ruleB] at hb
      exact (Except.ok.inj hb).symm
    cases ms with
    | nil => rfl
    | cons a t =>
      simp [fetchStep, mkResp, pyTruthy, pyContains, pyGetItem, pyLen,
        pyElems, pyDictGet, apply_ite]
  | some p =>
    simp only [ruleB] at hb
    cases ms with
    | nil => rfl
    | cons a t =>
      cases b <;>
        simp [fetchStep, mkResp, pyTruthy, pyContains, pyGetItem, pyLen,
          pyElems, pyDictGet, hb, apply_ite]

/-- C2 witness: the termination cascade instantiated on a one-record
page whose pagination metadata says there is no next page. -/
theorem C2_pagination_termination_witness :
    ruleB (some (.pydict [("count", .pynum (mkRat 1 1)), ("next", .pynull)])) =
      .ok true ∧
    fetchStep 250 (mkResp [.pydict []]
        (some (.pydict [("count", .pynum (mkRat 1 1)), ("next", .pynull)]))) [] =
      .ok (.stop [.pydict []]) :=
  ⟨rfl, by
    simpa using C2_pagination_termination.1 250 [.pydict []] []
      (some (.pydict [("count", .pynum (mkRat 1 1)), ("next", .pynull)])) true rfl⟩

/-- C6 counterexample: a transport-level failure is not propagated to
the caller as an exception — `get_congress_members` catches it and
returns `None` (the loop outcome is not a crash). -/
theorem C6_transport_cex :
    get_congress_members (fun _ => .err) 250 10 = some (.ok none) ∧
    (fetchLoop (fun _ => .err) 250 10 0 [] 0).isCrash = false := ⟨rfl, rfl⟩

/-- C6 amended: if any page request fails at the transport or
HTTP-status level, the fetcher catches the exception and returns `None`
(no data) to the caller instead of raising, and all partial results
fetched before the failure are discarded — the fetch is all-or-nothing
per run, with `main` then reporting a failed fetch and writing
nothing. -/
theorem C6_transport_amended :
    (∀ (src : Nat → ReqResult) (limit fuel offset reqs : Nat)
      (acc : List PyVal), src reqs = .err →
      fetchLoop src limit (fuel + 1) offset acc reqs = .fail) ∧
    (∀ (src : Nat → ReqResult) (limit fuel : Nat),
      fetchLoop src limit fuel 0 [] 0 = .fail →
      get_congress_members src limit fuel = some (.ok none)) ∧
    (∀ today now : String, mainFlow today now none = .fetchFailed) := by
  refine ⟨?_, ?_, fun t n => rfl⟩
  · intro src limit fuel offset reqs acc h
    unfold fetchLoop
    rw [h]
  · intro src limit fuel h
    unfold get_congress_members
    rw [h]

/-- C6 witness: a source whose sixth request fails, with a non-empty
partial accumulator that is discarded. -/
theorem C6_transport_amended_witness :
    fetchLoop (fun _ => .err) 250 (3 + 1) 7 [PyVal.pynull] 5 = .fail ∧
    get_congress_members (fun _ => .err) 250 (0 + 1) = some (.ok none) :=
  ⟨C6_transport_amended.1 _ 250 3 7 5 [PyVal.pynull] rfl,
   C6_transport_amended.2.1 _ 250 (0 + 1)
     (C6_transport_amended.1 _ 250 0 0 0 [] rfl)⟩

/-- C7: if the source's first page contains 0 records the fetcher stops
after one request and returns an empty collection
(`{'members': []}`), and on the resulting empty canonical collection
`main` writes no files, reporting "no data to process" instead. -/
theorem C7_empty_first_page :
    (∀ (src : Nat → ReqResult) (pag : Option PyVal) (limit fuel : Nat),
      src 0 = .ok (mkResp [] pag) →
      fetchLoop src limit (fuel + 1) 0 [] 0 = .done [] 1) ∧
    get_congress_members (fun _ => .ok (mkResp [] none)) 250 10 =
      some (.ok (some (.pydict [("members", .pylist [])]))) ∧
    (∀ today now : String,
      mainFlow today now (some (.pydict [("members", .pylist [])])) =
        .noData) := by
  refine ⟨?_, rfl, fun t n => rfl⟩
  intro src pag limit fuel h
  unfold fetchLoop
  rw [h]
  rfl

/-- C7 witness: the empty-first-page rule applied to a concrete source
whose empty page carries pagination metadata. -/
theorem C7_empty_first_page_witness :
    fetchLoop (fun _ => .ok (mkResp []
        (some (.pydict [("count", .pynum (mkRat 0 1)), ("next", .pynull)]))))
      250 (9 + 1) 0 [] 0 = .done [] 1 :=
  C7_empty_first_page.1 _
    (some (.pydict [("count", .pynum (mkRat 0 1)), ("next", .pynull)])) 250 9 rfl

/-- C8 counterexample: the JSON key order of a representative record is
not the spec's `CanonicalMemberRecord` order — the code appends
`district` last (after `lastUpdated`), not between `title` and
`url`. -/
theorem C8_field_order_cex :
    keysOf "t" [("district", .pystr "3")] = some codeFieldOrderRep ∧
    ¬ (codeFieldOrderRep = canonicalFieldOrder) := ⟨rfl, by decide⟩

/-- C8 amended: the JSON files contain the full canonical collection
(one output record per raw member, in order, serialized with indent 2
and keys in insertion order), and every record's key order is fixed:
`id, name, firstName, lastName, party, state, chamber, title, url,
inOffice, lastUpdated` — with `district` appended last for
representatives and omitted for senators. -/
theorem C8_field_order_amended :
    (∀ (now : String) (m : List (String × PyVal)),
      keysOf now m = none ∨ keysOf now m = some codeFieldOrder ∨
        keysOf now m = some codeFieldOrderRep) ∧
    (∀ (now : String) (m : List (String × PyVal)),
      fieldOf now m "title" = some (.pystr "Senator") →
        keysOf now m = some codeFieldOrder) ∧
    (∀ (now : String) (m : List (String × PyVal)),
      fieldOf now m "title" = some (.pystr "Representative") →
        keysOf now m = some codeFieldOrderRep) ∧
    (∀ (now : String) (ms : List PyVal) (pag : Option PyVal)
      (recs : List (List (String × PyVal))),
      process_members_data now (mkResp ms pag) = .ok recs →
        recs.length = ms.length) ∧
    (∀ d : List (List (String × PyVal)),
      (save_to_json d).content = d ∧ (save_to_json d).indent = 2) := by
  refine ⟨?_, ?_, ?_, ?_, fun d => ⟨rfl, rfl⟩⟩
  · intro now m
    unfold keysOf
    cases hp : processMember now m with
    | error e => exact Or.inl rfl
    | ok r =>
      obtain ⟨ns, ct, ch, isSen, d0, -, -, -, -, -, rfl⟩ := processMember_shape hp
      rw [Except.toOption, Option.map_some', mkRec_keys]
      cases isSen with
      | true => exact Or.inr (Or.inl rfl)
      | false => exact Or.inr (Or.inr rfl)
  · intro now m htitle
    unfold fieldOf at htitle
    unfold keysOf
    cases hp : processMember now m with
    | error e => simp [hp] at htitle
    | ok r =>
      rw [hp] at htitle
      dsimp only at htitle
      obtain ⟨ns, ct, ch, isSen, d0, -, -, -, -, -, rfl⟩ := processMember_shape hp
      rw [mkRec_get_title] at htitle
      cases isSen with
      | true => rw [Except.toOption, Option.map_some', mkRec_keys]; rfl
      | false => simp at htitle
  · intro now m htitle
    unfold fieldOf at htitle
    unfold keysOf
    cases hp : processMember now m with
    | error e => simp [hp] at htitle
    | ok r =>
      rw [hp] at htitle
      dsimp only at htitle
      obtain ⟨ns, ct, ch, isSen, d0, -, -, -, -, -, rfl⟩ := processMember_shape hp
      rw [mkRec_get_title] at htitle
      cases isSen with
      | true => simp at htitle
      | false => rw [Except.toOption, Option.map_some', mkRec_keys]; rfl
  · intro now ms pag recs h
    unfold process_members_data at h
    rw [show (!pyTruthy (mkResp ms pag)) = false by cases pag <;> rfl] at h
    rw [show pyContains (mkResp ms pag) "members" = .ok true by
      cases pag <;> rfl] at h
    rw [show pyGetItem (mkResp ms pag) "members" = .ok (.pylist ms) by
      cases pag <;> rfl] at h
    dsimp only [Bool.false_eq_true, if_false, pyElems] at h
    exact mapM_length _ ms recs h

/-- C8 witness: the key-order and collection-preservation rules applied
to a concrete senator, a concrete representative, and a concrete
one-page payload. -/
theorem C8_field_order_amended_witness :
    keysOf "t" [("terms", .pydict [("item",
        .pylist [.pydict [("chamber", .pystr "Senate")]])])] =
      some codeFieldOrder ∧
    keysOf "t" [("district", .pystr "3")] = some codeFieldOrderRep ∧
    ([[("id", PyVal.pystr ""), ("name", PyVal.pystr ""),
       ("firstName", PyVal.pystr ""), ("lastName", PyVal.pystr ""),
       ("party", PyVal.pystr ""), ("state", PyVal.pystr ""),
       ("chamber", PyVal.pystr ""), ("title", PyVal.pystr "Representative"),
       ("url", PyVal.pystr ""), ("inOffice", PyVal.pybool false),
       ("lastUpdated", PyVal.pystr "t"), ("district", PyVal.pynull)]].length =
      [PyVal.pydict []].length) :=
  ⟨C8_field_order_amended.2.1 "t" _ rfl,
   C8_field_order_amended.2.2.1 "t" _ rfl,
   C8_field_order_amended.2.2.2.1 "t" [.pydict []] none _ rfl⟩

end CongressMembers
